import Mathlib

/-!
Verification of the typo-fixing workflow core of `meticulous`
(`app/meticulous/_process.py`), as a shallow embedding in Lean 4.

The embedding covers:
* `get_typo`: parsing the staged unified diff into a `(del_word, add_word,
  file_paths)` triple;
* `add_change_for_repo`'s save step and the durable store round-trip;
* `make_issue` / `load_commit_like_file`: the draft-file format;
* `get_pr_or_issue_choices`: the sentinel-file driven workflow menu;
* `push_commit` / `create_pr` / `submit_commit`: branch naming and the
  pull-request target.

External collaborators (git, the hosting API, the durable storage module)
are modelled at their interface: their outputs are parameters of the
embedded functions.
-/

set_option autoImplicit false

namespace Meticulous

/-! ### Character-level string primitives

Python string operations are modelled charwise on `String.data` (Python `str`
indexing/slicing is by code point, which matches `List Char`). The library's
`String.startsWith`/`String.drop`/`String.trim` are avoided because their
positional loops do not reduce inside the kernel. -/

/-- Python `s.startswith(p)`. -/
def startsWithStr (s p : String) : Bool :=
  s.data.take p.data.length == p.data

/-- Python `s[n:]`. -/
def strDrop (s : String) (n : Nat) : String :=
  String.mk (s.data.drop n)

/-- Python `s.strip()`: remove leading and trailing whitespace. -/
def strTrim (s : String) : String :=
  String.mk (((s.data.dropWhile Char.isWhitespace).reverse.dropWhile
    Char.isWhitespace).reverse)

/-- Python `sep.join(parts)`. -/
def joinSep (sep : String) : List String → String
  | [] => ""
  | [x] => x
  | x :: y :: xs => x ++ sep ++ joinSep sep (y :: xs)

/-! ### Tokenisation: Python `re.findall("\\S+", s)` -/

/-- Accumulator-based scanner for maximal runs of non-whitespace characters:
`wordsAux cs acc` processes `cs` with `acc` holding the (in-order) characters
of the run currently being read. -/
def wordsAux : List Char → List Char → List (List Char)
  | [], acc => if acc.isEmpty then [] else [acc]
  | c :: cs, acc =>
    if c.isWhitespace then
      if acc.isEmpty then wordsAux cs [] else acc :: wordsAux cs []
    else wordsAux cs (acc ++ [c])

/-- `re.findall("\\S+", s)`: the maximal runs of non-whitespace characters of
`s`, in order. -/
def tokens (s : String) : List String :=
  (wordsAux s.data []).map (fun w => String.mk w)

/-! ### `get_typo` (lines 361-390 of `_process.py`)

The version-control collaborator's output (`git diff --staged`, split into
lines by `splitlines()`) is the input `diff_lines`. -/

/-- First loop of `get_typo`: collect the suffix of every line starting with
`--- a/`, in order of appearance. -/
def file_paths_of : List String → List String
  | [] => []
  | l :: ls =>
    if startsWithStr l "--- a/" then (strDrop l 6) :: file_paths_of ls
    else file_paths_of ls

/-- Second loop of `get_typo`: one pass that classifies each line as a
deletion (`-` but not `--- `) or, failing that, an addition (`+` but not
`+++ `), dropping the marker character. Returns `(del_lines, add_lines)`. -/
def scan_lines : List String → List String × List String
  | [] => ([], [])
  | l :: ls =>
    let rest := scan_lines ls
    if startsWithStr l "-" && !(startsWithStr l "--- ") then
      ((strDrop l 1) :: rest.1, rest.2)
    else if startsWithStr l "+" && !(startsWithStr l "+++ ") then
      (rest.1, (strDrop l 1) :: rest.2)
    else rest

/-- The deletion lines of the diff (marker stripped). -/
def del_lines_of (diff_lines : List String) : List String :=
  (scan_lines diff_lines).1

/-- The addition lines of the diff (marker stripped). -/
def add_lines_of (diff_lines : List String) : List String :=
  (scan_lines diff_lines).2

/-- The `for del_word, add_word in zip(del_words, add_words)` walk: first
positionally differing token pair, if any. -/
def first_diff : List String → List String → Option (String × String)
  | d :: ds, a :: as =>
    if d ≠ a then some (d, a) else first_diff ds as
  | _, _ => none

/-- The two failure modes of `get_typo`. In the source both raise
`ProcessingFailed`, distinguished by the diagnostic printed at the raise
site (`"Could not read diff"` vs `"Could not locate typo"`); the spec names
them `NoDiffFound` and `TypoNotLocated`. -/
inductive TypoError where
  | NoDiffFound
  | TypoNotLocated
deriving DecidableEq, Repr

/-- The diagnostic printed to `stderr` at each raise site. -/
def TypoError.diagnostic : TypoError → String
  | .NoDiffFound => "Could not read diff"
  | .TypoNotLocated => "Could not locate typo"

/-- `get_typo` (lines 361-390): scan the staged diff for the typo. Fails
with `NoDiffFound` when either deletion or addition lines are absent
(`if not del_lines or not add_lines`), otherwise walks the zipped token
lists of the first deletion and first addition line and returns the first
differing pair together with `file_paths`, failing with `TypoNotLocated`
when no pair differs. -/
def get_typo (diff_lines : List String) :
    Except TypoError (String × String × List String) :=
  match del_lines_of diff_lines, add_lines_of diff_lines with
  | [], _ => .error .NoDiffFound
  | _ :: _, [] => .error .NoDiffFound
  | dl :: _, al :: _ =>
    match first_diff (tokens dl) (tokens al) with
    | some (d, a) => .ok (d, a, file_paths_of diff_lines)
    | none => .error .TypoNotLocated

/-! ### Durable store and the save step of `add_change_for_repo`
(lines 341-358 of `_process.py`) -/

/-- The pending-change record saved by `add_change_for_repo`, with the
dict keys used in the source. -/
structure SaveRecord where
  add_word : String
  del_word : String
  file_paths : List String
  repodir : String
deriving DecidableEq, Repr

/-- A Python dict as an insertion-ordered association list (keys unique);
`dictSet m k v` models `m[k] = v`: overwrite an existing key in place,
otherwise append at the end. -/
def dictSet {α : Type} (m : List (String × α)) (k : String) (v : α) :
    List (String × α) :=
  match m with
  | [] => [(k, v)]
  | (k1, v1) :: rest =>
    if k1 = k then (k, v) :: rest else (k1, v1) :: dictSet rest k v

/-- Modelled from the spec: the durable storage module
(`meticulous._storage`) is not under `src/`; §4.1 describes it as durable
storage scoped to named collections, each a mapping from repository name to
its record. The state is the function from collection key to collection
contents (for the `"repository_saves"` collection, name to `SaveRecord`). -/
def Storage : Type := String → List (String × SaveRecord)

/-- Modelled from the spec: `get_json_value(name, {})` — `get` on a missing
collection returns an empty mapping (never fails); the state totalises this
by carrying every collection, defaulting to empty. -/
def get_json_value (st : Storage) (key : String) : List (String × SaveRecord) :=
  st key

/-- Modelled from the spec: `set_json_value(name, value)` — a full overwrite
of the named collection. -/
def set_json_value (st : Storage) (key : String)
    (value : List (String × SaveRecord)) : Storage :=
  fun k => if k = key then value else st k

/-- `pathlib.Path(s).name`: the final path component (empty components and
trailing slashes ignored, as pathlib normalises them away). -/
def path_name (s : String) : String :=
  ((s.splitOn "/").filter (fun c => c ≠ "")).getLastD ""

/-- The save branch of `add_change_for_repo` (lines 349-358): after
`get_typo` returned `(del_word, add_word, file_paths)` and the operator
chose "save", read the `"repository_saves"` collection, bind the record
under `Path(repodir).name`, and write the collection back. -/
def add_change_for_repo_save (st : Storage) (repodir del_word add_word : String)
    (file_paths : List String) : Storage :=
  let saves := get_json_value st "repository_saves"
  let reponame := path_name repodir
  set_json_value st "repository_saves"
    (dictSet saves reponame
      { add_word := add_word, del_word := del_word,
        file_paths := file_paths, repodir := repodir })

/-! ### Draft files: `make_issue` (lines 184-217) and
`load_commit_like_file` (lines 277-287) -/

/-- The spec's name for the exception raised by `load_commit_like_file`
(`"Needs to be a blank second line for {path}."`). -/
inductive DraftError where
  | MalformedDraft
deriving DecidableEq, Repr

/-- Split a character list into its newline-separated lines (text after the
final newline, possibly empty, is the last line). -/
def lineSplit : List Char → List (List Char)
  | [] => [[]]
  | c :: cs =>
    match lineSplit cs with
    | [] => [[]]
    | l :: ls => if c = '\n' then [] :: l :: ls else (c :: l) :: ls

/-- The lines of a text file's content. -/
def fileLines (s : String) : List String :=
  (lineSplit s.data).map (fun l => String.mk l)

/-- The title drafted by `make_issue` and `make_a_commit` (line 193):
`f"Fix simple typo: {del_word} -> {add_word}"`. -/
def make_issue_title (r : SaveRecord) : String :=
  "Fix simple typo: " ++ r.del_word ++ " -> " ++ r.add_word

/-- The body drafted by `make_issue` (lines 194-213): the full variant is
the structured repro/expected-behaviour template, the short variant a
two-line description; both reference `", ".join(file_paths)`. -/
def make_issue_body (r : SaveRecord) (is_full : Bool) : String :=
  let files := joinSep ", " r.file_paths
  if is_full then
    "# Issue Type\n\n[x] Bug (Typo)\n\n# Steps to Replicate\n\n1. Examine "
      ++ files ++ ".\n2. Search for `" ++ r.del_word
      ++ "`.\n\n# Expected Behaviour\n\n1. Should read `" ++ r.add_word ++ "`.\n"
  else
    "There is a small typo in " ++ files ++ ".\nShould read `" ++ r.add_word
      ++ "` rather than `" ++ r.del_word ++ "`.\n"

/-- The `__issue__.txt` content written by `make_issue` (lines 214-217):
`print(title)`, `print("")`, `print(body)`, each `print` appending `"\n"`. -/
def make_issue_content (r : SaveRecord) (is_full : Bool) : String :=
  make_issue_title r ++ "\n" ++ "\n" ++ make_issue_body r is_full ++ "\n"

/-- `load_commit_like_file` (lines 277-287): `title` is the stripped first
line, the stripped second line must be blank (else the `MalformedDraft`
exception), and the body is everything after the second newline. -/
def load_commit_like_file (content : String) :
    Except DraftError (String × String) :=
  let lines := fileLines content
  let title := strTrim ((lines.get? 0).getD "")
  let blankline := strTrim ((lines.get? 1).getD "")
  if blankline ≠ "" then .error .MalformedDraft
  else .ok (title, joinSep "\n" (lines.drop 2))

/-! ### The workflow menu: `get_pr_or_issue_choices` (lines 143-181) -/

/-- Which of the probed files exist under the repository working directory,
in the order the source probes them. -/
structure RepoFiles where
  issue_template : Bool
  pr_template : Bool
  contrib_guide : Bool
  prpath : Bool
  issue : Bool
  commit : Bool
  no_issues : Bool
deriving DecidableEq, Repr

/-- The handler/context pairs stored as menu values: `(show_path, path)`,
`(make_a_commit, False)`, `(make_issue, True/False)`, `(submit_issue, None)`,
`(submit_commit, None)`. -/
inductive Action where
  | show_path (path : String)
  | make_a_commit
  | make_issue (is_full : Bool)
  | submit_issue
  | submit_commit
deriving DecidableEq, Repr

/-- `get_pr_or_issue_choices` (lines 143-181): build the `choices` dict from
the sentinel/template files present in the repository working directory. -/
def get_pr_or_issue_choices (f : RepoFiles) : List (String × Action) :=
  let probes : List (Bool × String) :=
    [(f.issue_template, ".github/ISSUE_TEMPLATE"),
     (f.pr_template, ".github/pull_request_template.md"),
     (f.contrib_guide, "CONTRIBUTING.md"),
     (f.prpath, "__pr__.txt"),
     (f.issue, "__issue__.txt"),
     (f.commit, "__commit__.txt"),
     (f.no_issues, "__no_issues__.txt")]
  let c0 := probes.foldl
    (fun c e =>
      if e.1 then dictSet c ("show " ++ e.2) (Action.show_path e.2) else c) []
  let c1 :=
    if f.no_issues then dictSet c0 "make a commit" Action.make_a_commit
    else
      dictSet (dictSet c0 "make a full issue" (Action.make_issue true))
        "make a short issue" (Action.make_issue false)
  let c2 := if f.issue then dictSet c1 "submit issue" Action.submit_issue else c1
  if f.commit then
    dictSet (dictSet c2 "submit commit" Action.submit_commit)
      "submit issue" Action.submit_issue
  else c2

/-- The menu keys offered to the operator. -/
def choice_keys (f : RepoFiles) : List String :=
  (get_pr_or_issue_choices f).map Prod.fst

/-! ### Submitting the commit: `push_commit` (302-312), `create_pr`
(315-327), `submit_commit` (290-299) -/

/-- The version-control operations issued by `push_commit`. -/
inductive GitCmd where
  | commitWithFile (message_file : String)
  | push (remote : String) (refspec : String)
deriving DecidableEq, Repr

/-- `push_commit` (lines 302-312): `to_branch` is the currently checked-out
branch (`git symbolic-ref --short HEAD`, supplied here by the
version-control collaborator as `head_branch`), `from_branch` is
`f"bugfix/typo_{add_word}"`; commit from `__commit__.txt` and push
`origin to_branch:from_branch`; return `(from_branch, to_branch)`. -/
def push_commit (head_branch add_word : String) :
    (String × String) × List GitCmd :=
  let to_branch := head_branch
  let from_branch := "bugfix/typo_" ++ add_word
  ((from_branch, to_branch),
    [GitCmd.commitWithFile "__commit__.txt",
     GitCmd.push "origin" (to_branch ++ ":" ++ from_branch)])

/-- A hosting-API repository object: its name and its fork parent chain. -/
inductive GHRepo where
  | root (full_name : String)
  | fork (full_name : String) (parent : GHRepo)
deriving DecidableEq, Repr

/-- `repo.parent`: `none` exactly when the repository is not a fork. -/
def GHRepo.parent : GHRepo → Option GHRepo
  | .root _ => none
  | .fork _ p => some p

/-- The `while repo.parent: repo = repo.parent` walk of `create_pr` and
`issue_via_api`: the upstream root of the fork chain. -/
def resolve_root : GHRepo → GHRepo
  | .root n => .root n
  | .fork _ p => resolve_root p

/-- The pull request created by `create_pr`. -/
structure PullReq where
  title : String
  body : String
  base : String
  head : String
deriving DecidableEq, Repr

/-- `create_pr` (lines 315-327): walk to the upstream root of
`f"{user_org}/{reponame}"` and create the pull request there with
`base=to_branch` and `head=f"{user_org}:{from_branch}"`. Returns the
repository the PR is created on together with the PR. -/
def create_pr (user_org : String) (repo : GHRepo)
    (title body from_branch to_branch : String) : GHRepo × PullReq :=
  (resolve_root repo,
   { title := title, body := body, base := to_branch,
     head := user_org ++ ":" ++ from_branch })

/-- An issue-creation request sent to the hosting API
(`repo.create_issue(title=title, body=body)`). -/
structure IssueReq where
  title : String
  body : String
deriving DecidableEq, Repr

/-- `submit_issue` (lines 242-261) with `issue_via_api` (lines 264-274)
inlined: read `__issue__.txt` through `load_commit_like_file` (raising
`MalformedDraft` before anything is sent to the API), create the issue on
the upstream root of the fork chain (the hosting-API collaborator assigns
the number, here `create_issue`), and return the new `__commit__.txt`
content referencing that number. -/
def submit_issue (repo : GHRepo) (del_word add_word : String)
    (create_issue : IssueReq → Nat) (issue_content : String) :
    Except DraftError ((GHRepo × IssueReq × Nat) × String) :=
  match load_commit_like_file issue_content with
  | .error e => .error e
  | .ok (title, body) =>
    let req : IssueReq := { title := title, body := body }
    let num := create_issue req
    .ok ((resolve_root repo, req, num),
      "Fix simple typo: " ++ del_word ++ " -> " ++ add_word ++
        "\n\nCloses #" ++ toString num ++ "\n\n")

/-- `submit_commit` (lines 290-299): read `__commit__.txt` through
`load_commit_like_file`, then `push_commit` with the saved `add_word`, then
`create_pr`. `head_branch` is the branch checked out in `repodir`; `repo`
is the hosting-API object for `f"{user_org}/{reponame}"`; `commit_content`
is the content of `__commit__.txt`. -/
def submit_commit (user_org : String) (repo : GHRepo)
    (head_branch add_word commit_content : String) :
    Except DraftError ((String × String) × List GitCmd × GHRepo × PullReq) :=
  match load_commit_like_file commit_content with
  | .error e => .error e
  | .ok (title, body) =>
    let pushed := push_commit head_branch add_word
    let pr := create_pr user_org repo title body pushed.1.1 pushed.1.2
    .ok (pushed.1, pushed.2, pr)

/-! ## Helper lemmas -/

theorem first_diff_nil_left (ys : List String) : first_diff [] ys = none := by
  cases ys <;> rfl

theorem first_diff_cons_cons (x y : String) (xs ys : List String) :
    first_diff (x :: xs) (y :: ys) =
      if x ≠ y then some (x, y) else first_diff xs ys := rfl

/-- If the token sequences agree at every position below `i` and carry a
differing pair `(d, a)` at position `i`, the zip walk returns `(d, a)`. -/
theorem first_diff_some (i : Nat) :
    ∀ (xs ys : List String) (d a : String),
      (∀ j, j < i → ∃ t, xs.get? j = some t ∧ ys.get? j = some t) →
      xs.get? i = some d → ys.get? i = some a → d ≠ a →
      first_diff xs ys = some (d, a) := by
  induction i with
  | zero =>
    intro xs ys d a _ hd ha hne
    cases xs with
    | nil => simp at hd
    | cons x xs' =>
      cases ys with
      | nil => simp at ha
      | cons y ys' =>
        simp only [List.get?_cons_zero, Option.some.injEq] at hd ha
        subst hd; subst ha
        simp [first_diff_cons_cons, hne]
  | succ i ih =>
    intro xs ys d a hagree hd ha hne
    obtain ⟨t, hx, hy⟩ := hagree 0 (Nat.succ_pos i)
    cases xs with
    | nil => simp at hx
    | cons x xs' =>
      cases ys with
      | nil => simp at hy
      | cons y ys' =>
        simp only [List.get?_cons_zero, Option.some.injEq] at hx hy
        subst hx; subst hy
        simp only [List.get?_cons_succ] at hd ha
        rw [first_diff_cons_cons]
        simp only [ne_eq, not_true_eq_false, if_neg, ite_not, if_pos rfl]
        exact ih xs' ys' d a
          (fun j hj => by simpa using hagree (j + 1) (Nat.succ_lt_succ hj))
          hd ha hne

/-- If every positionally paired token is equal, the zip walk finds
nothing. -/
theorem first_diff_none :
    ∀ (xs ys : List String),
      (∀ i d a, xs.get? i = some d → ys.get? i = some a → d = a) →
      first_diff xs ys = none := by
  intro xs
  induction xs with
  | nil => intro ys _; exact first_diff_nil_left ys
  | cons x xs' ih =>
    intro ys h
    cases ys with
    | nil => rfl
    | cons y ys' =>
      have hxy : x = y := h 0 x y (by simp) (by simp)
      subst hxy
      rw [first_diff_cons_cons]
      simp only [ne_eq, not_true_eq_false, if_false, ite_not, if_pos rfl]
      exact ih ys' fun i d a hd ha =>
        h (i + 1) d a (by simpa using hd) (by simpa using ha)

/-- The pair the zip walk returns is a differing pair. -/
theorem ne_of_first_diff_some :
    ∀ (xs ys : List String) (d a : String),
      first_diff xs ys = some (d, a) → d ≠ a := by
  intro xs
  induction xs with
  | nil =>
    intro ys d a h
    rw [first_diff_nil_left] at h
    cases h
  | cons x xs' ih =>
    intro ys d a h
    cases ys with
    | nil => cases h
    | cons y ys' =>
      rw [first_diff_cons_cons] at h
      by_cases hxy : x = y
      · subst hxy
        simp only [ne_eq, not_true_eq_false, if_false, ite_not, if_pos rfl] at h
        exact ih ys' d a h
      · simp only [ne_eq, hxy, not_false_eq_true, if_true, ite_not, if_neg hxy,
          Option.some.injEq, Prod.mk.injEq] at h
        obtain ⟨hd, ha⟩ := h
        subst hd; subst ha
        exact hxy

/-- Unfolding `get_typo` once the first deletion and addition lines are
known. -/
theorem get_typo_eq_of_heads {diff_lines : List String} {dl al : String}
    {ds as : List String}
    (hdel : del_lines_of diff_lines = dl :: ds)
    (hadd : add_lines_of diff_lines = al :: as) :
    get_typo diff_lines =
      match first_diff (tokens dl) (tokens al) with
      | some (d, a) => .ok (d, a, file_paths_of diff_lines)
      | none => .error .TypoNotLocated := by
  unfold get_typo
  rw [hdel, hadd]

/-- `file_paths_of` is the filter-and-strip of the `--- a/` lines. -/
theorem file_paths_of_eq_filter_map (diff_lines : List String) :
    file_paths_of diff_lines =
      (diff_lines.filter (fun l => startsWithStr l "--- a/")).map
        (fun l => strDrop l 6) := by
  induction diff_lines with
  | nil => rfl
  | cons l ls ih =>
    by_cases h : startsWithStr l "--- a/" <;>
      simp [file_paths_of, h, ih, List.filter_cons]

/-- A `--- a/` line in the diff makes `file_paths_of` non-empty. -/
theorem file_paths_of_ne_nil {diff_lines : List String} {l : String}
    (hmem : l ∈ diff_lines) (hpre : startsWithStr l "--- a/" = true) :
    file_paths_of diff_lines ≠ [] := by
  induction diff_lines with
  | nil => cases hmem
  | cons x ls ih =>
    cases hmem with
    | head => simp [file_paths_of, hpre]
    | tail _ hmem' =>
      by_cases hx : startsWithStr x "--- a/" <;>
        simp [file_paths_of, hx, ih hmem']

/-! ## The claims -/

/-- C1: For every unified staged diff containing at least one deletion line
and at least one addition line, whose first deletion line and first addition
line, tokenized on runs of non-whitespace, first differ at some position
with tokens `(d, a)` where `d ≠ a`, `get_typo` returns exactly
`(d, a, file_paths)`, where `file_paths` is the ordered list of suffixes of
every diff line beginning with `--- a/`. -/
theorem claim_C1 (diff_lines : List String) (dl al : String)
    (ds as : List String) (i : Nat) (d a : String)
    (hdel : del_lines_of diff_lines = dl :: ds)
    (hadd : add_lines_of diff_lines = al :: as)
    (hagree : ∀ j, j < i →
      ∃ t, (tokens dl).get? j = some t ∧ (tokens al).get? j = some t)
    (hd : (tokens dl).get? i = some d) (ha : (tokens al).get? i = some a)
    (hne : d ≠ a) :
    get_typo diff_lines =
      .ok (d, a,
        (diff_lines.filter (fun l => startsWithStr l "--- a/")).map
          (fun l => strDrop l 6)) := by
  rw [get_typo_eq_of_heads hdel hadd,
    first_diff_some i (tokens dl) (tokens al) d a hagree hd ha hne,
    ← file_paths_of_eq_filter_map]

/-- C1 witness: the spec's scenario diff `--- a/foo.txt` / `-Teh cat sat` /
`+The cat sat` yields `("Teh", "The", ["foo.txt"])`. -/
theorem claim_C1_witness :
    get_typo ["diff --git a/foo.txt b/foo.txt", "index 5ca75db..0f5011a 100644",
      "--- a/foo.txt", "+++ b/foo.txt", "@@ -1 +1 @@", "-Teh cat sat",
      "+The cat sat"] = .ok ("Teh", "The", ["foo.txt"]) :=
  (claim_C1 ["diff --git a/foo.txt b/foo.txt", "index 5ca75db..0f5011a 100644",
      "--- a/foo.txt", "+++ b/foo.txt", "@@ -1 +1 @@", "-Teh cat sat",
      "+The cat sat"] "Teh cat sat" "The cat sat" [] [] 0 "Teh" "The" rfl rfl
    (fun j hj => absurd hj (Nat.not_lt_zero j)) rfl rfl (by decide)).trans rfl

/-- C2: For every diff in which the first deletion line and the first
addition line exist but no positional token pair differs, `get_typo` fails
with the `TypoNotLocated` error rather than returning a result. -/
theorem claim_C2 (diff_lines : List String) (dl al : String)
    (ds as : List String)
    (hdel : del_lines_of diff_lines = dl :: ds)
    (hadd : add_lines_of diff_lines = al :: as)
    (hsame : ∀ i d a, (tokens dl).get? i = some d →
      (tokens al).get? i = some a → d = a) :
    get_typo diff_lines = .error .TypoNotLocated := by
  rw [get_typo_eq_of_heads hdel hadd,
    first_diff_none (tokens dl) (tokens al) hsame]

/-- C2 witness: a diff whose first deletion and addition lines are
token-identical fails with `TypoNotLocated`. -/
theorem claim_C2_witness :
    get_typo ["--- a/foo.txt", "+++ b/foo.txt", "-The cat sat",
      "+The cat sat"] = .error .TypoNotLocated :=
  claim_C2 _ "The cat sat" "The cat sat" [] [] rfl rfl
    (fun _ _ _ hd ha => Option.some.inj (hd.symm.trans ha))

/-- C3: For every diff in which no deletion line (a line starting with `-`
other than `--- ` file headers) exists, or no addition line (a line
starting with `+` other than `+++ ` file headers) exists, `get_typo` fails
with the `NoDiffFound` error, distinct from the `TypoNotLocated` error. -/
theorem claim_C3 (diff_lines : List String)
    (h : del_lines_of diff_lines = [] ∨ add_lines_of diff_lines = []) :
    get_typo diff_lines = .error .NoDiffFound ∧
      TypoError.NoDiffFound ≠ TypoError.TypoNotLocated := by
  refine ⟨?_, by decide⟩
  unfold get_typo
  rcases h with h | h
  · rw [h]
  · rw [h]
    cases hdel : del_lines_of diff_lines <;> rfl

/-- C3 witness: a diff with a file header but no deletion lines fails with
`NoDiffFound`. -/
theorem claim_C3_witness :
    get_typo ["--- a/foo.txt", "+++ b/foo.txt"] = .error .NoDiffFound ∧
      TypoError.NoDiffFound ≠ TypoError.TypoNotLocated :=
  claim_C3 ["--- a/foo.txt", "+++ b/foo.txt"] (Or.inl rfl)

/-- C4: Every result `get_typo` successfully produces satisfies
`del_word ≠ add_word`: equality is rejected at extraction time (and the
save step of `add_change_for_repo`, `add_change_for_repo_save`, stores the
extracted words unmodified). -/
theorem claim_C4 (diff_lines : List String) (d a : String)
    (fps : List String) (h : get_typo diff_lines = .ok (d, a, fps)) :
    d ≠ a := by
  unfold get_typo at h
  split at h
  · cases h
  · cases h
  · rename_i dl _ al _ _ _
    split at h
    · rename_i hfd
      simp only [Except.ok.injEq, Prod.mk.injEq] at h
      obtain ⟨h1, h2, -⟩ := h
      subst h1; subst h2
      exact ne_of_first_diff_some _ _ _ _ hfd
    · cases h

/-- C4 witness: the scenario extraction produces the differing pair
`("Teh", "The")`. -/
theorem claim_C4_witness :
    get_typo ["--- a/foo.txt", "-Teh cat sat", "+The cat sat"] =
        .ok ("Teh", "The", ["foo.txt"]) ∧
      ("Teh" : String) ≠ "The" :=
  ⟨rfl, claim_C4 ["--- a/foo.txt", "-Teh cat sat", "+The cat sat"]
    "Teh" "The" ["foo.txt"] rfl⟩

/-- C5 counterexample: on a diff containing a deletion line and an addition
line but no line beginning `--- a/`, `get_typo` succeeds with an empty
`file_paths`, so a pending change with an empty `file_paths` sequence can be
produced and saved — the code never checks `file_paths` for emptiness.
(`git` produces such diffs, e.g. when `core.quotepath` makes it render a
non-ASCII path as `--- "a/..."`.) -/
theorem claim_C5_counterexample :
    get_typo ["-Teh cat sat", "+The cat sat"] = .ok ("Teh", "The", []) := rfl

/-- C5 (amended): for every input diff containing at least one line
beginning `--- a/` (as every staged diff with an unquoted old-file header
does), whenever `get_typo` succeeds its `file_paths` component is
non-empty. -/
theorem claim_C5_amended (diff_lines : List String) (d a : String)
    (fps : List String) (l : String) (hmem : l ∈ diff_lines)
    (hpre : startsWithStr l "--- a/" = true)
    (h : get_typo diff_lines = .ok (d, a, fps)) : fps ≠ [] := by
  unfold get_typo at h
  split at h
  · cases h
  · cases h
  · split at h
    · cases h
      exact file_paths_of_ne_nil hmem hpre
    · cases h

/-- C5 witness: on the scenario diff the saved `file_paths` is non-empty. -/
theorem claim_C5_witness : (["foo.txt"] : List String) ≠ [] :=
  claim_C5_amended ["--- a/foo.txt", "-Teh cat sat", "+The cat sat"]
    "Teh" "The" ["foo.txt"] "--- a/foo.txt" (by simp) rfl rfl

/-! ## Helper lemmas for the store, draft files and fork chain -/

/-- `dictSet` binds `k` to `v`: looking `k` up afterwards yields `v`. -/
theorem lookup_dictSet {α : Type} (m : List (String × α)) (k : String)
    (v : α) : (dictSet m k v).lookup k = some v := by
  induction m with
  | nil => simp [dictSet, List.lookup]
  | cons p m' ih =>
    obtain ⟨p1, p2⟩ := p
    by_cases hp : p1 = k
    · subst hp
      simp [dictSet, List.lookup]
    · have hk : (k == p1) = false := beq_eq_false_iff_ne.mpr (Ne.symm hp)
      simp [dictSet, hp, List.lookup, hk, ih]

theorem lineSplit_cons (c : Char) (cs : List Char) :
    lineSplit (c :: cs) =
      match lineSplit cs with
      | [] => [[]]
      | l :: ls => if c = '\n' then [] :: l :: ls else (c :: l) :: ls := rfl

theorem lineSplit_ne_nil (cs : List Char) : lineSplit cs ≠ [] := by
  cases cs with
  | nil => simp [lineSplit]
  | cons c cs' =>
    rw [lineSplit_cons]
    cases lineSplit cs' with
    | nil => simp
    | cons l ls => by_cases h : c = '\n' <;> simp [h]

/-- Splitting a text that starts with a newline-free line. -/
theorem lineSplit_append (a b : List Char) (h : '\n' ∉ a) :
    lineSplit (a ++ '\n' :: b) = a :: lineSplit b := by
  induction a with
  | nil =>
    simp only [List.nil_append]
    rw [lineSplit_cons]
    cases hb : lineSplit b with
    | nil => exact absurd hb (lineSplit_ne_nil b)
    | cons l ls => simp
  | cons c a' ih =>
    have hc : c ≠ '\n' := fun hc => h (hc ▸ List.mem_cons_self c a')
    have h' : '\n' ∉ a' := fun hm => h (List.mem_cons_of_mem c hm)
    simp only [List.cons_append]
    rw [lineSplit_cons, ih h']
    simp [hc]

/-- A leading newline contributes an empty first line. -/
theorem lineSplit_newline_cons (xs : List Char) :
    lineSplit ('\n' :: xs) = [] :: lineSplit xs := by
  rw [lineSplit_cons]
  cases hb : lineSplit xs with
  | nil => exact absurd hb (lineSplit_ne_nil xs)
  | cons l ls => simp

/-- The result of the `while repo.parent: repo = repo.parent` walk has no
parent: it is the top-most non-forked repository of the chain. -/
theorem resolve_root_parent (repo : GHRepo) :
    (resolve_root repo).parent = none := by
  induction repo with
  | root n => rfl
  | fork n p ih => exact ih

/-! ## The claims, continued -/

/-- C6: saving a pending change for a repository and then reloading the
`"repository_saves"` collection yields an entry for that repository name
whose `del_word`, `add_word`, `file_paths` and `repodir` fields equal
exactly the saved values (store round-trip); a later save for the same
name overwrites the prior entry. -/
theorem claim_C6 (st : Storage) (repodir del_word add_word : String)
    (file_paths : List String) (del2 add2 : String) (fps2 : List String) :
    (get_json_value
        (add_change_for_repo_save st repodir del_word add_word file_paths)
        "repository_saves").lookup (path_name repodir) =
      some { add_word := add_word, del_word := del_word,
             file_paths := file_paths, repodir := repodir } ∧
    (get_json_value
        (add_change_for_repo_save
          (add_change_for_repo_save st repodir del_word add_word file_paths)
          repodir del2 add2 fps2)
        "repository_saves").lookup (path_name repodir) =
      some { add_word := add2, del_word := del2,
             file_paths := fps2, repodir := repodir } := by
  constructor <;>
  · simp only [add_change_for_repo_save, get_json_value, set_json_value,
      if_pos rfl]
    exact lookup_dictSet _ _ _

/-- C7: for every pending change (whose words, being whitespace-free
tokens, contain no newline), the issue draft written by `make_issue` (full
or short variant) has the title `Fix simple typo: <del_word> -> <add_word>`
as line 1 and an empty line 2; and the submit-issue operation, for every
draft file whose second line is not blank, fails with `MalformedDraft`
without creating an issue (the error carries no issue-creation record). -/
theorem claim_C7 :
    (∀ (r : SaveRecord) (is_full : Bool),
      '\n' ∉ r.del_word.data → '\n' ∉ r.add_word.data →
      (fileLines (make_issue_content r is_full)).get? 0 =
          some ("Fix simple typo: " ++ r.del_word ++ " -> " ++ r.add_word) ∧
        (fileLines (make_issue_content r is_full)).get? 1 = some "") ∧
    (∀ (repo : GHRepo) (del_word add_word : String)
      (create_issue : IssueReq → Nat) (content : String),
      strTrim (((fileLines content).get? 1).getD "") ≠ "" →
      submit_issue repo del_word add_word create_issue content =
        .error .MalformedDraft) := by
  constructor
  · intro r is_full hdel hadd
    have hdata : (make_issue_content r is_full).data =
        (make_issue_title r).data ++ '\n' ::
          '\n' :: (make_issue_body r is_full ++ "\n").data := by
      simp [make_issue_content, String.data_append]
    have hnl : '\n' ∉ (make_issue_title r).data := by
      simp only [make_issue_title, String.data_append, List.mem_append]
      rintro (((h | h) | h) | h)
      · exact absurd h (by decide)
      · exact hdel h
      · exact absurd h (by decide)
      · exact hadd h
    unfold fileLines
    rw [hdata, lineSplit_append _ _ hnl, lineSplit_newline_cons]
    exact ⟨rfl, rfl⟩
  · intro repo del_word add_word create_issue content h
    have hl : load_commit_like_file content = .error .MalformedDraft := by
      unfold load_commit_like_file
      simp only [if_pos h]
    unfold submit_issue
    rw [hl]

/-- C7 witness: a concrete full-variant draft has the drafted title and a
blank second line, and a concrete draft with a non-blank second line is
rejected with `MalformedDraft`. -/
theorem claim_C7_witness :
    ((fileLines (make_issue_content
        { add_word := "The", del_word := "Teh",
          file_paths := ["foo.txt"], repodir := "/data/proj" } true)).get? 0 =
        some "Fix simple typo: Teh -> The" ∧
      (fileLines (make_issue_content
        { add_word := "The", del_word := "Teh",
          file_paths := ["foo.txt"], repodir := "/data/proj" } true)).get? 1 =
        some "") ∧
      submit_issue (GHRepo.root "upstream/repo") "Teh" "The" (fun _ => 1)
          "Fix simple typo: Teh -> The\nbad line\nbody" =
        .error .MalformedDraft :=
  ⟨claim_C7.1
      { add_word := "The", del_word := "Teh",
        file_paths := ["foo.txt"], repodir := "/data/proj" } true
      (by decide) (by decide),
    claim_C7.2 (GHRepo.root "upstream/repo") "Teh" "The" (fun _ => 1)
      "Fix simple typo: Teh -> The\nbad line\nbody" (by decide)⟩

/-- C8: whenever the issues-disabled flag file (`__no_issues__.txt`) is
present, the menu offers the draft-commit action (`"make a commit"`) and
contains neither issue-drafting action. -/
theorem claim_C8 (f : RepoFiles) (h : f.no_issues = true) :
    "make a commit" ∈ choice_keys f ∧
      "make a full issue" ∉ choice_keys f ∧
      "make a short issue" ∉ choice_keys f := by
  obtain ⟨it, prt, cg, prp, iss, com, ni⟩ := f
  cases h
  cases it <;> cases prt <;> cases cg <;> cases prp <;> cases iss <;>
    cases com <;> decide

/-- C8 witness: with only the issues-disabled flag present, the menu offers
`"make a commit"` and no issue drafting. -/
theorem claim_C8_witness :
    "make a commit" ∈ choice_keys
        ⟨false, false, false, false, false, false, true⟩ ∧
      "make a full issue" ∉ choice_keys
        ⟨false, false, false, false, false, false, true⟩ ∧
      "make a short issue" ∉ choice_keys
        ⟨false, false, false, false, false, false, true⟩ :=
  claim_C8 ⟨false, false, false, false, false, false, true⟩ rfl

/-- C9: for every pending change with `add_word` `a`, `submit_commit`
pushes the currently checked-out local branch to the remote branch
`bugfix/typo_<a>` and creates a pull request whose head is that branch
(qualified by the forking user), whose base is the branch that was
originally checked out, on the upstream root of the fork chain (which has
no parent). -/
theorem claim_C9 (user_org : String) (repo : GHRepo)
    (head_branch add_word commit_content title body : String)
    (hload : load_commit_like_file commit_content = .ok (title, body)) :
    submit_commit user_org repo head_branch add_word commit_content =
      .ok (("bugfix/typo_" ++ add_word, head_branch),
        [GitCmd.commitWithFile "__commit__.txt",
         GitCmd.push "origin"
           (head_branch ++ ":" ++ ("bugfix/typo_" ++ add_word))],
        resolve_root repo,
        { title := title, body := body, base := head_branch,
          head := user_org ++ ":" ++ ("bugfix/typo_" ++ add_word) }) ∧
      (resolve_root repo).parent = none := by
  refine ⟨?_, resolve_root_parent repo⟩
  unfold submit_commit
  rw [hload]
  rfl

/-- C9 witness: with `add_word = "The"` the pushed remote branch is
`bugfix/typo_The`, the PR base is the originally checked-out branch
`master`, and the PR lands on the upstream root of the fork chain. -/
theorem claim_C9_witness :
    submit_commit "me" (GHRepo.fork "me/repo" (GHRepo.root "upstream/repo"))
        "master" "The" "Fix simple typo: Teh -> The\n\nCloses #1\n" =
      .ok (("bugfix/typo_The", "master"),
        [GitCmd.commitWithFile "__commit__.txt",
         GitCmd.push "origin" "master:bugfix/typo_The"],
        GHRepo.root "upstream/repo",
        { title := "Fix simple typo: Teh -> The", body := "Closes #1\n",
          base := "master", head := "me:bugfix/typo_The" }) ∧
      (resolve_root
        (GHRepo.fork "me/repo" (GHRepo.root "upstream/repo"))).parent =
        none := by
  have h := claim_C9 "me" (GHRepo.fork "me/repo" (GHRepo.root "upstream/repo"))
    "master" "The" "Fix simple typo: Teh -> The\n\nCloses #1\n"
    "Fix simple typo: Teh -> The" "Closes #1\n" rfl
  exact ⟨h.1.trans rfl, h.2⟩

/-- C10: the menu offers `"submit issue"` whenever the issue-draft sentinel
exists, and also whenever the commit-message sentinel exists even with no
issue draft, in both cases regardless of the issues-disabled flag: the flag
suppresses only the drafting actions, never submit-issue. -/
theorem claim_C10 (f : RepoFiles)
    (h : f.issue = true ∨ f.commit = true) :
    "submit issue" ∈ choice_keys f := by
  obtain ⟨it, prt, cg, prp, iss, com, ni⟩ := f
  rcases h with h | h <;> cases h <;>
    cases it <;> cases prt <;> cases cg <;> cases prp <;> cases ni <;>
    first
      | (cases com <;> decide)
      | (cases iss <;> decide)

/-- C10 witness: with the issues-disabled flag present and only the
issue-draft sentinel, `"submit issue"` is still offered. -/
theorem claim_C10_witness :
    "submit issue" ∈ choice_keys
      ⟨false, false, false, false, true, false, true⟩ :=
  claim_C10 ⟨false, false, false, false, true, false, true⟩ (Or.inl rfl)

end Meticulous
